import Mathlib

/-!
Verification of the entity/level/pathfinding core of the `blanked` game server.

Each section embeds one part of the TypeScript source as Lean definitions and
proves or refutes the spec's claims about it.  Conventions used throughout:

* JavaScript numbers are modeled as exact real numbers (`ℝ`) where irrational
  constants (`Math.PI`, `Math.SQRT2`) appear, and as rationals (`ℚ`) or
  integers (`ℤ`) where the code only ever handles such values.  The grid
  positions handled by the pathfinder are integer-rounded by `roundVector`,
  so they are modeled as integer triples directly.
* Fallible code (a JS `throw`) is modeled with `Except`: every statement that
  can throw in the source becomes an `Except.error` carrying the message or a
  tag naming the crash site.
* Object references that the code only ever reads the `id` of are modeled by
  the referenced id itself.
-/

/-! ### Vectors -/

/-- A 3D vector over `ℚ`, standing in for `Vector3` where the code only moves
values around (serialization, transform composition). -/
structure QVec3 where
  x : ℚ
  y : ℚ
  z : ℚ
deriving DecidableEq

/-- `Vector3.add`. -/
def QVec3.add (a b : QVec3) : QVec3 := ⟨a.x + b.x, a.y + b.y, a.z + b.z⟩

def QVec3.zero : QVec3 := ⟨0, 0, 0⟩

/-- A 3D vector over `ℝ`, used where real-valued arithmetic (`Math.PI`)
matters. -/
structure RVec3 where
  x : ℝ
  y : ℝ
  z : ℝ

/-! ### `Entity.update` (src/core/entity.ts lines 92-99)

```ts
public update() {
    if (Math.abs(this.rotation.y) > Math.PI) {
        this.rotation.y += Math.sign(this.rotation.y) * 2 * Math.PI;
    }
    this.position.addInPlace(this.velocity);
    this.emit('update');
}
```
The event emission carries no state and is not modeled. -/

/-- The transform state of a base `Entity` (its own `position`, `rotation`,
`velocity` fields). -/
structure EntityState where
  position : RVec3
  rotation : RVec3
  velocity : RVec3

open Classical in
/-- `Entity.update` from the source: the conditional `rotation.y` adjustment
(`+= Math.sign(y) * 2 * Math.PI`) followed by `position.addInPlace(velocity)`. -/
noncomputable def Entity.update (e : EntityState) : EntityState :=
  let ry : ℝ :=
    if |e.rotation.y| > Real.pi then e.rotation.y + Real.sign e.rotation.y * 2 * Real.pi
    else e.rotation.y
  { position := ⟨e.position.x + e.velocity.x, e.position.y + e.velocity.y,
      e.position.z + e.velocity.z⟩
    rotation := ⟨e.rotation.x, ry, e.rotation.z⟩
    velocity := e.velocity }

/-- An entity whose `rotation.y` is 3.5 rad, the concrete case named by the
spec. -/
noncomputable def entityRot35 : EntityState :=
  { position := ⟨0, 0, 0⟩, rotation := ⟨0, 3.5, 0⟩, velocity := ⟨0, 0, 0⟩ }

/-! ### `absoluteVelocity` (src/core/entity.ts lines 69-79)

```ts
public get absolutePosition(): Vector3 {
    return this.parent instanceof Entity ? this.parent.absolutePosition.add(this.position) : this.position;
}
public get absoluteRotation(): Vector3 {
    return this.parent instanceof Entity ? this.parent.absoluteRotation.add(this.rotation) : this.rotation;
}
public get absoluteVelocity(): Vector3 {
    return this.parent instanceof Entity ? this.parent.absoluteVelocity.add(this.rotation) : this.rotation;
}
```
An entity with its (finite) chain of parents is modeled as a tree with an
optional parent; the transform fields are `ℚ` vectors. -/

/-- An entity together with its parent chain: `root` has no parent, `child`
carries its parent.  Fields are `position`, `rotation`, `velocity`. -/
inductive TEntity where
  | root (position rotation velocity : QVec3)
  | child (position rotation velocity : QVec3) (parent : TEntity)
deriving DecidableEq

/-- The `absolutePosition` getter. -/
def TEntity.absolutePosition : TEntity → QVec3
  | .root p _ _ => p
  | .child p _ _ parent => QVec3.add parent.absolutePosition p

/-- The `absoluteRotation` getter. -/
def TEntity.absoluteRotation : TEntity → QVec3
  | .root _ r _ => r
  | .child _ r _ parent => QVec3.add parent.absoluteRotation r

/-- The `absoluteVelocity` getter, exactly as in the source: both the
recursive step and the base case use `rotation`, not `velocity`. -/
def TEntity.absoluteVelocity : TEntity → QVec3
  | .root _ r _ => r
  | .child _ r _ parent => QVec3.add parent.absoluteVelocity r

/-- Replace every `velocity` field in the parent chain by zero; two entities
with the same `stripVelocity` image differ at most in velocity fields. -/
def TEntity.stripVelocity : TEntity → TEntity
  | .root p r _ => .root p r QVec3.zero
  | .child p r _ parent => .child p r QVec3.zero parent.stripVelocity

/-! ### Pathfinding (component `path`, src/unnamed/part_006)

Every number the pathfinder computes is of the form `s·√2 + u` with natural
`s`, `u` (grid positions are integer-rounded, `nodeDistance` returns
`√2·min + (max−min)` of natural deltas, and costs are sums of such values).
`Cost` represents these values exactly, so the comparisons the algorithm
performs can be executed; the lemmas below prove the executable comparisons
agree with the real-number comparisons `<` and `==` the JS code performs. -/

/-- The exact value `s·√2 + u`, the form of every `gCost`/`hCost`/`fCost`
arising in `findPath`. -/
structure Cost where
  s : ℕ
  u : ℕ
deriving DecidableEq

/-- JS `+` on costs. -/
def Cost.add (a b : Cost) : Cost := ⟨a.s + b.s, a.u + b.u⟩

/-- The real number a `Cost` stands for. -/
noncomputable def Cost.toReal (c : Cost) : ℝ := c.s * Real.sqrt 2 + c.u

/-- Executable JS `<` on cost values (decided by integer arithmetic;
`Cost.lt_iff` proves it correct). -/
def Cost.lt (a b : Cost) : Bool :=
  let ds : ℤ := (a.s : ℤ) - (b.s : ℤ)
  let du : ℤ := (b.u : ℤ) - (a.u : ℤ)
  if 0 ≤ ds then decide (0 < du) && decide (2 * ds ^ 2 < du ^ 2)
  else decide (0 ≤ du) || decide (du ^ 2 < 2 * ds ^ 2)

/-- Executable JS `==` on cost values (`Cost.beq_iff` proves it correct). -/
def Cost.beq (a b : Cost) : Bool := a.s == b.s && a.u == b.u

/-! ### `PathNode` and `nodeDistance` (src/unnamed/part_006 lines 33-57)

```ts
export class PathNode {
    public position = Vector3.Zero();
    public constructor(position: IVector3Like, public parent?: PathNode) {
        this.position = roundVector(position);
    }
    public gCost = 0;
    public hCost = 0;
    public get fCost() { return this.gCost + this.hCost; }
    public get id(): string { return this.position.asArray().toString(); }
}

function nodeDistance(nodeA: PathNode, nodeB: PathNode): number {
    if (!(nodeA instanceof PathNode && nodeB instanceof PathNode)) throw new TypeError(...);
    const distanceX = Math.abs(nodeA.position.x - nodeB.position.x);
    const distanceY = Math.abs(nodeA.position.z - nodeB.position.z);
    return Math.SQRT2 * (distanceX > distanceY ? distanceY : distanceX) + (distanceX > distanceY ? 1 : -1) * (distanceX - distanceY);
}
```

Node positions are integer-rounded by `roundVector`, so they are integer
triples; the canonical string id `position.asArray().toString()` is in
bijection with the triple and is modeled by the triple itself. -/

/-- An integer grid position (`roundVector` output). -/
structure IVec3 where
  x : ℤ
  y : ℤ
  z : ℤ
deriving DecidableEq

/-- `Vector3.add` on grid positions. -/
def IVec3.add (a b : IVec3) : IVec3 := ⟨a.x + b.x, a.y + b.y, a.z + b.z⟩

/-- `PathNode`: position, `gCost`, `hCost` (as exact `Cost` values) and the
optional `parent` backlink set at construction. -/
inductive PNode where
  | mk (pos : IVec3) (gCost : Cost) (hCost : Cost) (parent : Option PNode)

def PNode.pos : PNode → IVec3
  | .mk p _ _ _ => p

def PNode.gCost : PNode → Cost
  | .mk _ g _ _ => g

def PNode.hCost : PNode → Cost
  | .mk _ _ h _ => h

def PNode.parent : PNode → Option PNode
  | .mk _ _ _ par => par

/-- The `fCost` getter (`gCost + hCost`). -/
def PNode.fCost (n : PNode) : Cost := Cost.add n.gCost n.hCost

open Classical in
/-- `nodeDistance`, literally: with `distanceX = Math.abs(a.position.x - b.position.x)`
and `distanceY = Math.abs(a.position.z - b.position.z)` (the source's names), the
value `Math.SQRT2 * (dX > dY ? dY : dX) + (dX > dY ? 1 : -1) * (dX - dY)`. -/
noncomputable def nodeDistance (nodeA nodeB : PNode) : ℝ :=
  Real.sqrt 2 * (if |(nodeA.pos.x : ℝ) - (nodeB.pos.x : ℝ)| > |(nodeA.pos.z : ℝ) - (nodeB.pos.z : ℝ)|
      then |(nodeA.pos.z : ℝ) - (nodeB.pos.z : ℝ)| else |(nodeA.pos.x : ℝ) - (nodeB.pos.x : ℝ)|)
    + (if |(nodeA.pos.x : ℝ) - (nodeB.pos.x : ℝ)| > |(nodeA.pos.z : ℝ) - (nodeB.pos.z : ℝ)|
      then 1 else -1)
      * (|(nodeA.pos.x : ℝ) - (nodeB.pos.x : ℝ)| - |(nodeA.pos.z : ℝ) - (nodeB.pos.z : ℝ)|)

/-- A concrete path node at the origin. -/
def nodeW1 : PNode := PNode.mk ⟨0, 0, 0⟩ ⟨0, 0⟩ ⟨0, 0⟩ none

/-- A concrete path node at (3, 0, 3): both coordinate deltas from `nodeW1`
equal 3. -/
def nodeW2 : PNode := PNode.mk ⟨3, 0, 3⟩ ⟨0, 0⟩ ⟨0, 0⟩ none

/-- The distance needed by a concrete run of `findPath`: the same formula as
`nodeDistance`, computed exactly in `Cost` form.  Since positions are
integers, the source's float comparison `distanceX > distanceY` coincides
with the natural-number comparison used here, and each branch produces
`√2·min + (max−min)` with natural coefficients; `nodeDistC_toReal` proves
this agrees with the literal `nodeDistance`. -/
def nodeDistC (a b : IVec3) : Cost :=
  let dX : ℕ := (a.x - b.x).natAbs
  let dZ : ℕ := (a.z - b.z).natAbs
  if dZ < dX then ⟨dZ, dX - dZ⟩ else ⟨dX, dZ - dX⟩

/-! ### `findPath` (src/unnamed/part_006 lines 59-136)

The JS `Map<string, PathNode>` keyed by canonical position ids is modeled as
an insertion-ordered association list keyed by the position triple (the map
invariant `key = node.id` holds at every `set` site in the source).  `set` on
an existing key replaces the value in place (JS `Map` keeps the original
insertion position); `delete` removes the entry; `values()` iterates in
insertion order. -/

def nmFind (m : List (IVec3 × PNode)) (k : IVec3) : Option PNode :=
  (m.find? (fun p => p.1 == k)).map Prod.snd

def nmHas (m : List (IVec3 × PNode)) (k : IVec3) : Bool :=
  (m.find? (fun p => p.1 == k)).isSome

def nmSet (m : List (IVec3 × PNode)) (k : IVec3) (v : PNode) : List (IVec3 × PNode) :=
  if nmHas m k then m.map (fun p => if p.1 == k then (k, v) else p) else m ++ [(k, v)]

def nmErase (m : List (IVec3 × PNode)) (k : IVec3) : List (IVec3 × PNode) :=
  m.filter (fun p => !(p.1 == k))

def nmValues (m : List (IVec3 × PNode)) : List PNode := m.map Prod.snd

def nmSize (m : List (IVec3 × PNode)) : ℕ := m.length

/-- The ways `findPath` can crash at runtime. -/
inductive PathErr where
  /-- `getLeastExpensiveNode` threw `Error('No nodes in list')`: the loop's
  update expression ran on an empty `open` map. -/
  | noNodes
  /-- `trace` walked past a node with no parent: the JS `TypeError` from
  reading `.id` of `undefined`. -/
  | traceCrash
  /-- Artificial recursion bound exhausted.  The caps in the loop condition
  bound the source loop by 10001 iterations (each iteration grows `closed` by
  one and the loop requires `closed.size < 10000`), so with fuel 10002 this
  value is unreachable; it exists only to make the translation total. -/
  | fuelOut
deriving DecidableEq

/-- `getLeastExpensiveNode`'s scan: `best ||= node` then replace `best` when
`best.fCost > node.fCost || (best.fCost == node.fCost && best.hCost < node.hCost)`. -/
def leastGo (best : PNode) : List PNode → PNode
  | [] => best
  | n :: rest =>
      if Cost.lt n.fCost best.fCost || (Cost.beq best.fCost n.fCost && Cost.lt best.hCost n.hCost)
      then leastGo n rest
      else leastGo best rest

/-- `getLeastExpensiveNode`: throws `Error('No nodes in list')` when the
iterable is empty. -/
def getLeastExpensiveNode : List PNode → Except PathErr PNode
  | [] => Except.error PathErr.noNodes
  | n :: rest => Except.ok (leastGo n rest)

/-- `trace(startNode, endNode)`: follow `parent` links from `endNode`,
collecting nodes until a node with the start's id is reached; reading the
parent of a parentless node is the JS crash `TypeError: Cannot read
properties of undefined`.  (The source pushes then reverses; this recursion
produces the same order.) -/
def traceGo (startPos : IVec3) : PNode → Except PathErr (List PNode)
  | .mk pos g h par =>
      if pos = startPos then Except.ok []
      else
        match par with
        | none => Except.error PathErr.traceCrash
        | some p =>
            match traceGo startPos p with
            | Except.ok l => Except.ok (l ++ [PNode.mk pos g h par])
            | Except.error e => Except.error e

/-- The neighbor offsets `[0, 1, -1].flatMap(x => [0, 1, -1].map(y => new
Vector3(x, 0, y))).filter(v => v.x != 0 || v.z != 0)`. -/
def neighborOffsets : List IVec3 :=
  ((([0, 1, -1] : List ℤ).flatMap
    (fun x => (([0, 1, -1] : List ℤ).map (fun y => (⟨x, 0, y⟩ : IVec3))))).filter
      (fun v => !(v.x == 0) || !(v.z == 0)))

/-- An obstacle entity as the pathfinder sees it: its `absolutePosition`
(integer-valued for the claims' inputs) and its `_pathRadius` (source
default 1). -/
structure Obstacle where
  position : IVec3
  pathRadius : ℤ
deriving DecidableEq

/-- `Vector3.Distance(entity.absolutePosition, neighbor.position) <=
entity._pathRadius + 1`, decided exactly: a nonnegative distance is `≤ r+1`
iff `r+1` is nonnegative and the squared distance is `≤ (r+1)²`
(`intersectsObstacle_iff` below). -/
def intersectsObstacle (e : Obstacle) (p : IVec3) : Bool :=
  decide (0 ≤ e.pathRadius + 1)
    && decide ((e.position.x - p.x) ^ 2 + (e.position.y - p.y) ^ 2 + (e.position.z - p.z) ^ 2
        ≤ (e.pathRadius + 1) ^ 2)

/-- The body of the inner `for (const neighbor of neighbors)` loop, threading
the `open` map.  `nb.1` records whether the neighbor object was fetched from
the `open` map (in which case assigning its costs mutates the stored entry)
or freshly constructed (in which case, if its id is already in `open`, the
mutated fresh object is dropped by the `!openNodes.has` guard). -/
def processNeighbor (node endN : PNode) (entities : List Obstacle)
    (closedN : List (IVec3 × PNode)) (opnN : List (IVec3 × PNode)) (nb : Bool × PNode) :
    List (IVec3 × PNode) :=
  let neighbor := nb.2
  if entities.any (fun e => intersectsObstacle e neighbor.pos) || nmHas closedN neighbor.pos then
    opnN
  else
    let costToNeighbor := Cost.add node.gCost (nodeDistC node.pos neighbor.pos)
    if Cost.lt neighbor.gCost costToNeighbor && nmHas opnN neighbor.pos then
      opnN
    else
      let updated := PNode.mk neighbor.pos costToNeighbor (nodeDistC neighbor.pos endN.pos)
        neighbor.parent
      if !(nmHas opnN neighbor.pos) then nmSet opnN neighbor.pos updated
      else if nb.1 then nmSet opnN neighbor.pos updated
      else opnN

/-- The `for (let node = ...; cond; node = ...)` loop of `findPath`.  Each
call models: evaluate `getLeastExpensiveNode` (the init/update expression —
this is where an empty `open` throws), test the loop condition
`node.id != endNode.id && open.size > 0 && open.size < 1e4 && closed.size < 1e4`,
and if it holds run the body.  The body's own `if (node.id == endNode.id)`
success branch is kept as written even though the condition test makes it
unreachable (this dead branch is the decisive defect behind claims C1/C2).
The neighbor list is built with `openNodes.get(v.asArray().toString())` — the
*offset* vector's key, exactly as in the source. -/
def findLoop (entities : List Obstacle) :
    ℕ → List (IVec3 × PNode) → List (IVec3 × PNode) → PNode →
    Except PathErr (PNode × List (IVec3 × PNode) × List (IVec3 × PNode))
  | 0, _, _, _ => Except.error PathErr.fuelOut
  | Nat.succ fuel, opnN, closedN, endN =>
      match getLeastExpensiveNode (nmValues opnN) with
      | Except.error e => Except.error e
      | Except.ok node =>
          if ¬(node.pos ≠ endN.pos ∧ 0 < nmSize opnN ∧ nmSize opnN < 10000
              ∧ nmSize closedN < 10000) then
            Except.ok (endN, opnN, closedN)
          else
            let opnN2 := nmErase opnN node.pos
            let closedN2 := nmSet closedN node.pos node
            if node.pos = endN.pos then
              Except.ok (node, opnN2, closedN2)
            else
              let neighbors := neighborOffsets.map (fun v =>
                match nmFind opnN2 v with
                | some n => (true, n)
                | none => (false, PNode.mk (IVec3.add node.pos v) ⟨0, 0⟩ ⟨0, 0⟩ (some node)))
              let opnN3 := neighbors.foldl (processNeighbor node endN entities closedN2) opnN2
              findLoop entities fuel opnN3 closedN2 endN

/-- `findPath(start, end, entities)`.  The claims' inputs are integer
vectors, on which `roundVector` (applied by the `PathNode` constructor) is
the identity, so positions are passed as integer triples.  After the loop,
`trace(startNode, endNode)` runs on the *original* `endNode` — the
`endNode = node` assignment inside the loop body is unreachable — and the
traced nodes' positions are returned. -/
def findPath (start endP : IVec3) (entities : List Obstacle) : Except PathErr (List IVec3) :=
  let startNode := PNode.mk start ⟨0, 0⟩ ⟨0, 0⟩ none
  let endNode := PNode.mk endP ⟨0, 0⟩ ⟨0, 0⟩ none
  match findLoop entities 10002 [(start, startNode)] [] endNode with
  | Except.error e => Except.error e
  | Except.ok (endN, _, _) =>
      match traceGo start endN with
      | Except.error e => Except.error e
      | Except.ok path => Except.ok (path.map PNode.pos)

/-! ### `filterEntities` (src/core/entity.ts lines 156-186)

```ts
export function filterEntities(entities: Iterable<Entity>, selector: string): Set<Entity> {
    if (typeof selector != 'string') { throw new TypeError(...); }
    if (selector == '*') { return new Set(entities); }
    const selected = new Set<Entity>();
    for (const entity of entities) {
        switch (selector[0]) {
            case '@': if (entity.name == selector.slice(1)) selected.add(entity); break;
            case '#': if (entity.id == selector.slice(1)) selected.add(entity); break;
            case '.': for (const type of entity.entityTypes) {
                    if (type.toLowerCase().includes(selector.slice(1).toLowerCase())) { selected.add(entity); }
                } break;
            default: throw new Error('Invalid selector');
        }
    }
    return selected;
}
```
The entity set is modeled as a list in iteration order; the result `Set` adds
each matching entity once, in iteration order, i.e. it is a filter of the
input.  `selector[0]` is the optional first character (`undefined` on the
empty string, taking the `default` branch). -/

/-- An entity as the selector sees it: `name`, `id` and the `entityTypes`
chain of registered type names (the `resolveConstructors` walk). -/
structure CEntity where
  id : String
  name : String
  entityTypes : List String
deriving DecidableEq

/-- JS `String#includes`: `needle` occurs contiguously in the list. -/
def charsIncludes (needle : List Char) : List Char → Bool
  | [] => needle.isEmpty
  | c :: rest => needle.isPrefixOf (c :: rest) || charsIncludes needle rest

/-- JS `hay.includes(needle)`. -/
def strIncludes (hay needle : String) : Bool := charsIncludes needle.data hay.data

/-- JS `String#toLowerCase` (the inputs of interest are ASCII type names). -/
def strToLower (s : String) : String := ⟨s.data.map Char.toLower⟩

/-- The `for (const entity of entities)` loop with its per-entity `switch` on
`selector[0]`; the `default` branch throws on the first entity reached. -/
def filterGo (selector : String) : List CEntity → Except String (List CEntity)
  | [] => Except.ok []
  | e :: rest =>
      if selector.data.head? = some '@' then
        match filterGo selector rest with
        | Except.ok l => Except.ok (if e.name == selector.drop 1 then e :: l else l)
        | Except.error err => Except.error err
      else if selector.data.head? = some '#' then
        match filterGo selector rest with
        | Except.ok l => Except.ok (if e.id == selector.drop 1 then e :: l else l)
        | Except.error err => Except.error err
      else if selector.data.head? = some '.' then
        match filterGo selector rest with
        | Except.ok l =>
            Except.ok (if e.entityTypes.any
                (fun t => strIncludes (strToLower t) (strToLower (selector.drop 1)))
              then e :: l else l)
        | Except.error err => Except.error err
      else Except.error ("Invalid selector")

/-- `filterEntities`: the `'*'` fast path, else the per-entity loop. -/
def filterEntities (entities : List CEntity) (selector : String) : Except String (List CEntity) :=
  if selector == "*" then Except.ok entities else filterGo selector entities

/-- The selector behavior in the spec's words, amended only where the
counterexample forces it: `*` selects everything, `@`/`#`/`.` filter by
name, id, and case-insensitive type-chain substring, and an invalid leading
character is an error — but only when the entity set is non-empty; on the
empty set the per-entity loop never runs and the empty set is returned. -/
def filterEntitiesSpec (entities : List CEntity) (selector : String) :
    Except String (List CEntity) :=
  if selector == "*" then Except.ok entities
  else if selector.data.head? = some '@' then
    Except.ok (entities.filter (fun e => e.name == selector.drop 1))
  else if selector.data.head? = some '#' then
    Except.ok (entities.filter (fun e => e.id == selector.drop 1))
  else if selector.data.head? = some '.' then
    Except.ok (entities.filter (fun e => e.entityTypes.any
      (fun t => strIncludes (strToLower t) (strToLower (selector.drop 1)))))
  else if entities.isEmpty then Except.ok []
  else Except.error ("Invalid selector")

/-! ### `execCommandString` (src/core/commands.ts lines 14-38)

```ts
export const execCommandString = (string, context, ignoreOp?) => {
    context.executor.permissionLevel ??= 0;
    for (const [name, command] of commands) {
        if (!string.startsWith(name)) { continue; }
        if (context.executor.permissionLevel < command.permissionLevel && !ignoreOp) {
            return 'You do not have permission to execute that command';
        }
        const args = string.slice(name.length).split(/\s/).filter(a => a);
        if (typeof command.exec != 'function') { return 'Command is not implemented'; }
        return command.exec(context, ...args);
    }
    return 'Command does not exist';
};
```
The registered command map is a list in insertion order; a handler is a pure
function from the argument list to `Option String` (`string | void`), or
`none` when `exec` is not a function; the result is `Option String`.  The
dispatcher itself contains no `throw` site, so the model is total. -/

/-- JS `string.startsWith(name)`, computed structurally on the character
lists. -/
def strStartsWith (s pre : String) : Bool := pre.data.isPrefixOf s.data

/-- A registered command: required permission level and its handler. -/
structure Command where
  permissionLevel : ℤ
  exec : Option (List String → Option String)

/-- `string.slice(name.length).split(/\s/).filter(a => a)`. -/
def splitArgs (s : String) : List String :=
  (s.split (fun c => c.isWhitespace)).filter (fun a => a ≠ "")

/-- The `for (const [name, command] of commands)` loop. -/
def execCommandGo (s : String) (lvl : ℤ) (ignoreOp : Bool) :
    List (String × Command) → Option String
  | [] => some ("Command does not exist")
  | (name, cmd) :: rest =>
      if ¬(strStartsWith s name) then execCommandGo s lvl ignoreOp rest
      else if lvl < cmd.permissionLevel ∧ ignoreOp = false then
        some ("You do not have permission to execute that command")
      else
        match cmd.exec with
        | none => some ("Command is not implemented")
        | some f => f (splitArgs (s.drop name.length))

/-- `execCommandString`: an absent executor `permissionLevel` defaults to 0
(`??= 0`), then the dispatch loop runs. -/
def execCommandString (cmds : List (String × Command)) (s : String)
    (executorLevel : Option ℤ) (ignoreOp : Bool) : Option String :=
  execCommandGo s (executorLevel.getD 0) ignoreOp cmds

/-- The first registered command whose name is a prefix of the input. -/
def firstMatch (cmds : List (String × Command)) (s : String) : Option (String × Command) :=
  cmds.find? (fun p => strStartsWith s p.1)

/-- Forget the handlers, keeping each command's name and permission level. -/
def stripExec (cmds : List (String × Command)) : List (String × ℤ) :=
  cmds.map (fun p => (p.1, p.2.permissionLevel))

/-- The command of the spec's concrete example: name `"kick "`, permission
level 2. -/
def kickCmd : Command :=
  { permissionLevel := 2, exec := some (fun _ => some ("kicked")) }

/-! ### `Level.toJSON` / `Level.fromJSON` (src/unnamed/part_004 lines 84-168)

```ts
export let loadingOrder: (typeof Entity)[] = [Player, Entity];

public toJSON(): LevelJSON {
    const entities: EntityJSON[] = [...this.entities].map(e => e.toJSON());
    const order = loadingOrder.map(entity => entity.name).toReversed();
    entities.sort((a, b) => (order.indexOf(a.entityType) < order.indexOf(b.entityType) ? -1 : 1));
    return { ...pick(this, copy), date: new Date().toJSON(), entities };
}

public fromJSON(json: LevelJSON): void {
    assignWithDefaults(this as Level, pick(json, copy));
    this.date = new Date(json.date);
    const priorities = loadingOrder.map(type => type.name);
    json.entities.sort((a, b) => (priorities.indexOf(a.entityType) > priorities.indexOf(b.entityType) ? 1 : -1));
    for (const data of json.entities) {
        if (!priorities.includes(data.entityType)) { logger.debug(`... (skipped)`); continue; }
        loadingOrder[priorities.indexOf(data.entityType)].FromJSON(data, this);
    }
}
```
with `Entity.FromJSON(data, level)` being `new this(data.id, level)` (the
constructor appends the entity to `level.entities`) followed by
`entity.fromJSON(data)`, which resolves the `parent`/`owner` id strings
through `level.getEntityByID` — a `ReferenceError('Entity does not exist')`
when absent — and then assigns the copied fields.

Modeling notes.
* Entity references are modeled by the referenced id (`toJSON` writes
  `this.parent?.id`; `fromJSON` looks the id up and stores the found entity,
  whose `id` equals the id looked up).
* `entityType` is the constructor's name; the factory chosen is
  `loadingOrder[priorities.indexOf(data.entityType)]`, whose name is exactly
  `data.entityType`, so the reconstructed entity's `entityType` is the
  record's.  The loading-order list is therefore modeled by the list of its
  type names.
* Both sorts use comparators that never return 0, so ties between equal keys
  are ordered in an implementation-defined way; they are modeled as a stable
  insertion sort by the `indexOf` key (`-1` for an unknown type, as in JS).
  No theorem below depends on the tie order: the counterexamples fail under
  every tie order, and the amended theorems take the model's order as input.
* `date` is regenerated on save (`new Date().toJSON()`) and not modeled;
  `id`, `name`, `difficulty` are carried.
* A `randomHex` id is generated only when a record's `id` is missing/empty;
  records produced by `toJSON` carry their entity's id, and the final
  `entity.fromJSON(data)` assignment overwrites the id with the record's in
  every case, so the random branch is not modeled. -/

/-- The serialized entity record (the `EntityJSON` interface); `owner` and
`parent` hold referenced ids. -/
structure EntityJSON where
  id : String
  name : String
  owner : Option String
  parent : Option String
  entityType : String
  position : QVec3
  rotation : QVec3
  velocity : QVec3
deriving DecidableEq

/-- A live entity in a level's entity set; `owner`/`parent` references are
modeled by the referenced entity's id. -/
structure LEntity where
  id : String
  name : String
  owner : Option String
  parent : Option String
  entityType : String
  position : QVec3
  rotation : QVec3
  velocity : QVec3
deriving DecidableEq

/-- `Entity#toJSON`. -/
def LEntity.toJSON (e : LEntity) : EntityJSON :=
  ⟨e.id, e.name, e.owner, e.parent, e.entityType, e.position, e.rotation, e.velocity⟩

/-- A `Level`: scalar fields and the entity set in insertion order. -/
structure Level where
  id : String
  name : String
  difficulty : ℚ
  entities : List LEntity
deriving DecidableEq

/-- The serialized level record (minus the regenerated `date`). -/
structure LevelJSON where
  id : String
  name : String
  difficulty : ℚ
  entities : List EntityJSON
deriving DecidableEq

/-- The default `loadingOrder = [Player, Entity]`, by type name. -/
def defaultLoadingOrder : List String := ["Player", "Entity"]

/-- JS `Array#indexOf`: index of the first occurrence, `-1` when absent. -/
def jsIndexOf (l : List String) (s : String) : ℤ :=
  match l.findIdx? (fun t => t == s) with
  | some n => (n : ℤ)
  | none => -1

/-- Stable insertion into a key-sorted list (ties keep the existing element
first). -/
def insertByKey (key : EntityJSON → ℤ) (a : EntityJSON) :
    List EntityJSON → List EntityJSON
  | [] => [a]
  | b :: l => if key a ≤ key b then a :: b :: l else b :: insertByKey key a l

/-- Stable sort by an integer key, modeling `Array#sort` with the source's
never-zero comparators. -/
def sortByKey (key : EntityJSON → ℤ) : List EntityJSON → List EntityJSON
  | [] => []
  | a :: l => insertByKey key a (sortByKey key l)

/-- `Level#toJSON`: serialize every entity, then order records ascending by
`indexOf` of their type in the *reversed* loading order. -/
def Level.toJSON (order : List String) (l : Level) : LevelJSON :=
  { id := l.id, name := l.name, difficulty := l.difficulty,
    entities := sortByKey (fun r => jsIndexOf order.reverse r.entityType)
      (l.entities.map LEntity.toJSON) }

/-- `Level#getEntityByID`: linear scan, `ReferenceError` when absent. -/
def Level.getEntityByID (l : Level) (eid : String) : Except String LEntity :=
  match l.entities.find? (fun e => e.id == eid) with
  | some e => Except.ok e
  | none => Except.error ("Entity does not exist")

/-- `data.parent ? this.level.getEntityByID(data.parent) : undefined` — the
truthiness test means the empty-string id also resolves to `undefined`. -/
def resolveRef (l : Level) : Option String → Except String (Option String)
  | none => Except.ok none
  | some p =>
      if p == "" then Except.ok none
      else
        match Level.getEntityByID l p with
        | Except.ok e => Except.ok (some e.id)
        | Except.error msg => Except.error msg

/-- `new Entity(id, level)` (before the level registers it): default fields,
`entityType` fixed by the dispatched constructor. -/
def newEntity (eid : String) (etype : String) : LEntity :=
  { id := eid, name := "", owner := none, parent := none, entityType := etype,
    position := QVec3.zero, rotation := QVec3.zero, velocity := QVec3.zero }

/-- `Entity#fromJSON(data)` applied to the freshly constructed entity, with
the level already containing it: resolve `parent` then `owner` (the object
literal evaluates in that order, so the first missing reference throws), then
assign the record's fields. -/
def entityApplyJSON (l : Level) (e : LEntity) (d : EntityJSON) : Except String LEntity :=
  match resolveRef l d.parent with
  | Except.error msg => Except.error msg
  | Except.ok par =>
      match resolveRef l d.owner with
      | Except.error msg => Except.error msg
      | Except.ok own =>
          Except.ok { e with
            id := d.id,
            name := d.name,
            position := d.position,
            rotation := d.rotation,
            velocity := d.velocity,
            parent := par,
            owner := own }

/-- The `for (const data of json.entities)` reconstruction loop: skip records
whose type is not registered in the priority list (with a logged diagnostic),
otherwise construct (appending to the entity set) and fill in; a failed
reference lookup propagates as the loop's exception. -/
def loadEntities (order : List String) : List EntityJSON → Level → Except String Level
  | [], l => Except.ok l
  | d :: rest, l =>
      if d.entityType ∈ order then
        match entityApplyJSON { l with entities := l.entities ++ [newEntity d.id d.entityType] }
            (newEntity d.id d.entityType) d with
        | Except.error msg => Except.error msg
        | Except.ok e => loadEntities order rest { l with entities := l.entities ++ [e] }
      else loadEntities order rest l

/-- The order in which `fromJSON` processes records: ascending by `indexOf`
in the (unreversed) priority list. -/
def reconstructionOrder (order : List String) (json : LevelJSON) : List EntityJSON :=
  sortByKey (fun d => jsIndexOf order d.entityType) json.entities

/-- `Level#fromJSON`: restore scalar fields, then reconstruct records in
priority order. -/
def Level.fromJSON (order : List String) (l : Level) (json : LevelJSON) :
    Except String Level :=
  loadEntities order (reconstructionOrder order json)
    { l with id := json.id, name := json.name, difficulty := json.difficulty }

/-- `Level.FromJSON` (static): `new this()` then `fromJSON` — starts from an
empty entity set (the fresh level's random 16-hex id is immediately
overwritten by the record's). -/
def Level.FromJSON (order : List String) (json : LevelJSON) : Except String Level :=
  Level.fromJSON order { id := "", name := "", difficulty := 1, entities := [] } json

/-- A reference is resolvable against a set of available ids: absent, empty
(truthiness), or among them. -/
def refOk (avail : List String) : Option String → Bool
  | none => true
  | some p => p == "" || avail.contains p

/-- Every known-typed record's `parent`/`owner` ids resolve at its
reconstruction time: against the ids already loaded plus its own id (the
entity is registered before its references are resolved, so self-reference
works); skipped records contribute nothing. -/
def resolvableKnown (order : List String) : List String → List EntityJSON → Bool
  | _, [] => true
  | avail, d :: rest =>
      if d.entityType ∈ order then
        refOk (avail ++ [d.id]) d.parent && refOk (avail ++ [d.id]) d.owner
          && resolvableKnown order (avail ++ [d.id]) rest
      else resolvableKnown order avail rest

/-- Two entities of the registered type `Entity` that are each other's
parent: a level on which the round trip crashes, whichever record is
reconstructed first. -/
def cycleLevel : Level :=
  { id := "L2", name := "cyc", difficulty := 1,
    entities := [
      { id := "e1", name := "", owner := none, parent := some "e2", entityType := "Entity",
        position := ⟨0, 0, 0⟩, rotation := ⟨0, 0, 0⟩, velocity := ⟨0, 0, 0⟩ },
      { id := "e2", name := "", owner := none, parent := some "e1", entityType := "Entity",
        position := ⟨0, 0, 0⟩, rotation := ⟨0, 0, 0⟩, velocity := ⟨0, 0, 0⟩ } ] }

/-- A level exercising the amended round trip: a `Player` owning itself and
an `Entity` whose parent is the player. -/
def roundtripLevelW : Level :=
  { id := "L1", name := "lvl", difficulty := 1,
    entities := [
      { id := "p1", name := "alice", owner := some "p1", parent := none, entityType := "Player",
        position := ⟨0, 0, 0⟩, rotation := ⟨0, 0, 0⟩, velocity := ⟨0, 0, 0⟩ },
      { id := "e1", name := "rock", owner := none, parent := some "p1", entityType := "Entity",
        position := ⟨1, 2, 3⟩, rotation := ⟨0, 0, 0⟩, velocity := ⟨0, 0, 0⟩ } ] }

/-- A serialized level with one record of unregistered type `"Bogus"` and one
known `Entity` record whose `parent` names the skipped record. -/
def unknownRefJSON : LevelJSON :=
  { id := "L3", name := "", difficulty := 1,
    entities := [
      { id := "u", name := "", owner := none, parent := none, entityType := "Bogus",
        position := ⟨0, 0, 0⟩, rotation := ⟨0, 0, 0⟩, velocity := ⟨0, 0, 0⟩ },
      { id := "k", name := "", owner := none, parent := some "u", entityType := "Entity",
        position := ⟨0, 0, 0⟩, rotation := ⟨0, 0, 0⟩, velocity := ⟨0, 0, 0⟩ } ] }

/-- Like `unknownRefJSON`, but the known record carries no references, so
the skip is harmless. -/
def unknownOkJSON : LevelJSON :=
  { id := "L4", name := "", difficulty := 1,
    entities := [
      { id := "u", name := "", owner := none, parent := none, entityType := "Bogus",
        position := ⟨0, 0, 0⟩, rotation := ⟨0, 0, 0⟩, velocity := ⟨0, 0, 0⟩ },
      { id := "k", name := "", owner := none, parent := none, entityType := "Entity",
        position := ⟨0, 0, 0⟩, rotation := ⟨0, 0, 0⟩, velocity := ⟨0, 0, 0⟩ } ] }

/-! ### `Player.owner` (src/core/player.ts lines 9-17)

```ts
export class Player extends Entity {
    public get owner(): this {
        return this;
    }
    public update(): void {
        this.velocity.scaleInPlace(0.9);
    }
}
```
`Player` declares an accessor property with *only* a getter, which shadows
the base `Entity` `owner` get/set pair on the prototype chain; the getter
returns `this` unconditionally (it does not read the inherited `_owner`
backing field).  Because no setter is reachable, the `owner` assignment that
`Entity#fromJSON` performs through `assignWithDefaults` finds no setter and
is discarded (the strict-mode `TypeError` is swallowed by the helper), while
every other field is assigned; the `_owner` backing field is never touched.
The model therefore gives `Player.fromJSON` every field update except
`owner`. -/

/-- A `Player` instance's own state: the inherited fields, including the
`_owner` backing field the overriding getter ignores (references modeled by
id, as above). -/
structure PlayerEnt where
  id : String
  name : String
  backingOwner : Option String
  parent : Option String
  position : QVec3
  rotation : QVec3
  velocity : QVec3
deriving DecidableEq

/-- `Player`'s overriding `owner` getter: `return this`. -/
def PlayerEnt.owner (p : PlayerEnt) : PlayerEnt := p

/-- `Entity#fromJSON` as it acts on a `Player`: assigns the record's fields,
with the `parent`/`owner` ids resolved by the caller's level (passed here as
the resolved ids); the `owner` assignment is discarded for lack of a setter. -/
def PlayerEnt.fromJSON (p : PlayerEnt) (d : EntityJSON) : PlayerEnt :=
  { p with
    id := d.id,
    name := d.name,
    position := d.position,
    rotation := d.rotation,
    velocity := d.velocity,
    parent := d.parent }

/-- `Player#update`: `velocity.scaleInPlace(0.9)`. -/
def PlayerEnt.update (p : PlayerEnt) : PlayerEnt :=
  { p with
    velocity := ⟨p.velocity.x * (9 / 10), p.velocity.y * (9 / 10), p.velocity.z * (9 / 10)⟩ }

/-! ### Theorems -/

lemma pi_lt_35 : Real.pi < 3.5 := by
  have h := Real.pi_lt_d2
  norm_num at h ⊢
  linarith

lemma entityRot35_update_y :
    (Entity.update entityRot35).rotation.y = 3.5 + 2 * Real.pi := by
  have habs : |(3.5 : ℝ)| > Real.pi := by
    rw [abs_of_pos (by norm_num)]
    exact pi_lt_35
  have hsign : Real.sign (3.5 : ℝ) = 1 := Real.sign_of_pos (by norm_num)
  simp only [Entity.update, entityRot35]
  rw [if_pos habs, hsign]
  ring

/-- Claim C3: the spec says `update()` wraps `rotation.y` of 3.5 rad down by
2π into (−π, π].  The source instead *adds* `sign(y) * 2π`, moving the value
to `3.5 + 2π`, which is outside (−π, π] and differs from the claimed
`3.5 − 2π`.  The sign of the correction is flipped relative to the documented
intent: this theorem records the code's actual behavior at the spec's own
example input. -/
theorem update_rotation_wrap_bug :
    (Entity.update entityRot35).rotation.y = 3.5 + 2 * Real.pi
      ∧ (Entity.update entityRot35).rotation.y ∉ Set.Ioc (-Real.pi) Real.pi
      ∧ (Entity.update entityRot35).rotation.y ≠ 3.5 - 2 * Real.pi := by
  have hpi := Real.pi_pos
  refine ⟨entityRot35_update_y, ?_, ?_⟩
  · rw [entityRot35_update_y]
    intro h
    have h2 := h.2
    linarith
  · rw [entityRot35_update_y]
    intro h
    have : Real.pi = 0 := by linarith
    linarith

lemma absoluteVelocity_stripVelocity (e : TEntity) :
    e.stripVelocity.absoluteVelocity = e.absoluteVelocity := by
  induction e with
  | root p r v => rfl
  | child p r v parent ih =>
      simp [TEntity.stripVelocity, TEntity.absoluteVelocity, ih]

/-- Claim C6: for every entity (any depth of parent chain) the
`absoluteVelocity` getter returns the same vector as `absoluteRotation`, and
its value does not depend on any `velocity` field in the chain: entities that
agree after zeroing out every velocity get the same `absoluteVelocity`. -/
theorem absoluteVelocity_eq_absoluteRotation (e₁ e₂ : TEntity)
    (h : e₁.stripVelocity = e₂.stripVelocity) :
    e₁.absoluteVelocity = e₁.absoluteRotation
      ∧ e₁.absoluteVelocity = e₂.absoluteVelocity := by
  constructor
  · clear h
    induction e₁ with
    | root p r v => rfl
    | child p r v parent ih =>
        simp [TEntity.absoluteVelocity, TEntity.absoluteRotation, ih]
  · rw [← absoluteVelocity_stripVelocity e₁, ← absoluteVelocity_stripVelocity e₂, h]

/-- Witness for C6 at concrete entities: a two-level chain whose velocities
differ wildly but whose positions/rotations agree. -/
theorem absoluteVelocity_eq_absoluteRotation_witness :
    (TEntity.child ⟨1, 2, 3⟩ ⟨4, 5, 6⟩ ⟨7, 8, 9⟩
        (TEntity.root ⟨0, 1, 0⟩ ⟨2, 0, 2⟩ ⟨3, 3, 3⟩)).stripVelocity
      = (TEntity.child ⟨1, 2, 3⟩ ⟨4, 5, 6⟩ ⟨0, 0, 1⟩
        (TEntity.root ⟨0, 1, 0⟩ ⟨2, 0, 2⟩ ⟨9, 9, 9⟩)).stripVelocity
    ∧ (TEntity.child ⟨1, 2, 3⟩ ⟨4, 5, 6⟩ ⟨7, 8, 9⟩
        (TEntity.root ⟨0, 1, 0⟩ ⟨2, 0, 2⟩ ⟨3, 3, 3⟩)).absoluteVelocity
      = (TEntity.child ⟨1, 2, 3⟩ ⟨4, 5, 6⟩ ⟨7, 8, 9⟩
        (TEntity.root ⟨0, 1, 0⟩ ⟨2, 0, 2⟩ ⟨3, 3, 3⟩)).absoluteRotation
    ∧ (TEntity.child ⟨1, 2, 3⟩ ⟨4, 5, 6⟩ ⟨7, 8, 9⟩
        (TEntity.root ⟨0, 1, 0⟩ ⟨2, 0, 2⟩ ⟨3, 3, 3⟩)).absoluteVelocity
      = (TEntity.child ⟨1, 2, 3⟩ ⟨4, 5, 6⟩ ⟨0, 0, 1⟩
        (TEntity.root ⟨0, 1, 0⟩ ⟨2, 0, 2⟩ ⟨9, 9, 9⟩)).absoluteVelocity := by
  refine ⟨by decide, ?_⟩
  have h := absoluteVelocity_eq_absoluteRotation
    (TEntity.child ⟨1, 2, 3⟩ ⟨4, 5, 6⟩ ⟨7, 8, 9⟩
      (TEntity.root ⟨0, 1, 0⟩ ⟨2, 0, 2⟩ ⟨3, 3, 3⟩))
    (TEntity.child ⟨1, 2, 3⟩ ⟨4, 5, 6⟩ ⟨0, 0, 1⟩
      (TEntity.root ⟨0, 1, 0⟩ ⟨2, 0, 2⟩ ⟨9, 9, 9⟩))
    (by decide)
  exact ⟨h.1, h.2⟩

lemma sqrt2_pos : (0 : ℝ) < Real.sqrt 2 := Real.sqrt_pos.2 (by norm_num)

lemma sq_sqrt2 : Real.sqrt 2 ^ 2 = 2 := Real.sq_sqrt (by norm_num)

lemma int_mul_sqrt2_lt (ds du : ℤ) :
    ((ds : ℝ) * Real.sqrt 2 < du)
      ↔ (if 0 ≤ ds then 0 < du ∧ 2 * ds ^ 2 < du ^ 2
         else 0 ≤ du ∨ du ^ 2 < 2 * ds ^ 2) := by
  have expand : ((du : ℝ) - ds * Real.sqrt 2) * ((du : ℝ) + ds * Real.sqrt 2)
      = (du : ℝ) ^ 2 - (ds : ℝ) ^ 2 * Real.sqrt 2 ^ 2 := by ring
  rw [sq_sqrt2] at expand
  by_cases hds : 0 ≤ ds
  · rw [if_pos hds]
    have hx : (0 : ℝ) ≤ (ds : ℝ) * Real.sqrt 2 :=
      mul_nonneg (by exact_mod_cast hds) sqrt2_pos.le
    constructor
    · intro h
      have hdu : (0 : ℝ) < (du : ℝ) := lt_of_le_of_lt hx h
      refine ⟨by exact_mod_cast hdu, ?_⟩
      have hprod : 0 < ((du : ℝ) - ds * Real.sqrt 2) * ((du : ℝ) + ds * Real.sqrt 2) :=
        mul_pos (by linarith) (by linarith)
      rw [expand] at hprod
      have : (2 : ℝ) * (ds : ℝ) ^ 2 < (du : ℝ) ^ 2 := by linarith
      exact_mod_cast this
    · rintro ⟨hdu, hsq⟩
      have hdu' : (0 : ℝ) < (du : ℝ) := by exact_mod_cast hdu
      by_contra hcon
      push_neg at hcon
      have hsq' : (2 : ℝ) * (ds : ℝ) ^ 2 < (du : ℝ) ^ 2 := by exact_mod_cast hsq
      have hprod : ((du : ℝ) - ds * Real.sqrt 2) * ((du : ℝ) + ds * Real.sqrt 2) ≤ 0 :=
        mul_nonpos_iff.2 (Or.inr ⟨by linarith, by linarith⟩)
      rw [expand] at hprod
      linarith
  · rw [if_neg hds]
    push_neg at hds
    have hneg : (ds : ℝ) * Real.sqrt 2 < 0 :=
      mul_neg_of_neg_of_pos (by exact_mod_cast hds) sqrt2_pos
    constructor
    · intro h
      by_cases hdu : 0 ≤ du
      · exact Or.inl hdu
      · push_neg at hdu
        refine Or.inr ?_
        have hdu' : (du : ℝ) < 0 := by exact_mod_cast hdu
        have hprod : ((du : ℝ) - ds * Real.sqrt 2) * ((du : ℝ) + ds * Real.sqrt 2) < 0 :=
          mul_neg_of_pos_of_neg (by linarith) (by linarith)
        rw [expand] at hprod
        have : (du : ℝ) ^ 2 < 2 * (ds : ℝ) ^ 2 := by linarith
        exact_mod_cast this
    · intro h
      rcases h with hdu | hsq
      · exact lt_of_lt_of_le hneg (by exact_mod_cast hdu)
      · by_cases hdu : 0 ≤ du
        · exact lt_of_lt_of_le hneg (by exact_mod_cast hdu)
        · push_neg at hdu
          have hdu' : (du : ℝ) < 0 := by exact_mod_cast hdu
          have hsq' : (du : ℝ) ^ 2 < 2 * (ds : ℝ) ^ 2 := by exact_mod_cast hsq
          by_contra hcon
          push_neg at hcon
          have hprod : 0 ≤ ((du : ℝ) - ds * Real.sqrt 2) * ((du : ℝ) + ds * Real.sqrt 2) :=
            mul_nonneg_of_nonpos_of_nonpos (by linarith) (by linarith)
          rw [expand] at hprod
          linarith

lemma int_mul_sqrt2_eq (ds du : ℤ) :
    ((ds : ℝ) * Real.sqrt 2 = du) ↔ ds = 0 ∧ du = 0 := by
  constructor
  · intro h
    by_cases hds : ds = 0
    · subst hds
      simp only [Int.cast_zero, zero_mul] at h
      exact ⟨rfl, by exact_mod_cast h.symm⟩
    · exfalso
      have hds' : ((ds : ℝ)) ≠ 0 := Int.cast_ne_zero.2 hds
      have hq : Real.sqrt 2 = (((du : ℚ) / (ds : ℚ) : ℚ) : ℝ) := by
        push_cast
        rw [eq_div_iff hds']
        linarith [h]
      exact irrational_sqrt_two ⟨(du : ℚ) / (ds : ℚ), hq.symm⟩
  · rintro ⟨h1, h2⟩
    subst h1
    subst h2
    simp

lemma Cost.lt_iff (a b : Cost) : Cost.lt a b = true ↔ a.toReal < b.toReal := by
  have hre : a.toReal < b.toReal
      ↔ (((a.s : ℤ) - (b.s : ℤ) : ℤ) : ℝ) * Real.sqrt 2 < (((b.u : ℤ) - (a.u : ℤ) : ℤ) : ℝ) := by
    unfold Cost.toReal
    push_cast
    constructor <;> intro h <;> nlinarith [h]
  rw [hre, int_mul_sqrt2_lt]
  unfold Cost.lt
  by_cases hds : 0 ≤ (a.s : ℤ) - (b.s : ℤ)
  · simp only [hds, if_pos, if_true, Bool.and_eq_true, decide_eq_true_eq]
  · simp only [hds, if_neg, if_false, Bool.or_eq_true, decide_eq_true_eq]

lemma Cost.beq_iff (a b : Cost) : Cost.beq a b = true ↔ a.toReal = b.toReal := by
  have hre : a.toReal = b.toReal
      ↔ (((a.s : ℤ) - (b.s : ℤ) : ℤ) : ℝ) * Real.sqrt 2 = (((b.u : ℤ) - (a.u : ℤ) : ℤ) : ℝ) := by
    unfold Cost.toReal
    push_cast
    constructor <;> intro h <;> nlinarith [h]
  rw [hre, int_mul_sqrt2_eq]
  unfold Cost.beq
  simp only [Bool.and_eq_true, beq_iff_eq]
  omega

lemma Cost.add_toReal (a b : Cost) :
    (Cost.add a b).toReal = a.toReal + b.toReal := by
  unfold Cost.add Cost.toReal
  push_cast
  ring

/-- Claim C7: `nodeDistance(a, b)` equals `√2·min(dx, dz) + (max(dx, dz) −
min(dx, dz))` for every pair of path nodes, where dx/dz are the absolute
coordinate deltas — including the case `dx = dz`, where the value is `√2·dx`
(the `(dx > dz ? 1 : -1)` sign factor multiplies zero there, so the
non-standard sign logic is harmless). -/
theorem nodeDistance_octile (a b : PNode) :
    nodeDistance a b
        = Real.sqrt 2 * min |(a.pos.x : ℝ) - (b.pos.x : ℝ)| |(a.pos.z : ℝ) - (b.pos.z : ℝ)|
          + (max |(a.pos.x : ℝ) - (b.pos.x : ℝ)| |(a.pos.z : ℝ) - (b.pos.z : ℝ)|
            - min |(a.pos.x : ℝ) - (b.pos.x : ℝ)| |(a.pos.z : ℝ) - (b.pos.z : ℝ)|)
      ∧ (|(a.pos.x : ℝ) - (b.pos.x : ℝ)| = |(a.pos.z : ℝ) - (b.pos.z : ℝ)| →
          nodeDistance a b = Real.sqrt 2 * |(a.pos.x : ℝ) - (b.pos.x : ℝ)|) := by
  unfold nodeDistance
  set dX : ℝ := |(a.pos.x : ℝ) - (b.pos.x : ℝ)| with hdX
  set dZ : ℝ := |(a.pos.z : ℝ) - (b.pos.z : ℝ)| with hdZ
  have main : (Real.sqrt 2 * (if dX > dZ then dZ else dX)
        + (if dX > dZ then 1 else -1) * (dX - dZ))
      = Real.sqrt 2 * min dX dZ + (max dX dZ - min dX dZ) := by
    by_cases h : dX > dZ
    · rw [if_pos h, if_pos h, min_eq_right h.le, max_eq_left h.le]
      ring
    · push_neg at h
      rw [if_neg (not_lt.2 h), if_neg (not_lt.2 h), min_eq_left h, max_eq_right h]
      ring
  refine ⟨main, fun heq => ?_⟩
  rw [main, heq, min_self dZ, max_self dZ]
  ring

/-- Witness for C7 at nodes with `dx = dz = 3`: the value is `√2 · 3`. -/
theorem nodeDistance_octile_witness :
    |((nodeW1.pos.x : ℝ)) - ((nodeW2.pos.x : ℝ))| = |((nodeW1.pos.z : ℝ)) - ((nodeW2.pos.z : ℝ))|
      ∧ nodeDistance nodeW1 nodeW2
        = Real.sqrt 2 * |((nodeW1.pos.x : ℝ)) - ((nodeW2.pos.x : ℝ))| := by
  have habs : |((nodeW1.pos.x : ℝ)) - ((nodeW2.pos.x : ℝ))|
      = |((nodeW1.pos.z : ℝ)) - ((nodeW2.pos.z : ℝ))| := by
    norm_num [nodeW1, nodeW2, PNode.pos]
  exact ⟨habs, (nodeDistance_octile nodeW1 nodeW2).2 habs⟩

lemma nodeDistC_toReal (a b : PNode) :
    (nodeDistC a.pos b.pos).toReal = nodeDistance a b := by
  unfold nodeDistC nodeDistance Cost.toReal
  have hx : (((a.pos.x - b.pos.x).natAbs : ℕ) : ℝ) = |(a.pos.x : ℝ) - (b.pos.x : ℝ)| := by
    rw [Int.cast_natAbs]
    push_cast
    ring_nf
  have hz : (((a.pos.z - b.pos.z).natAbs : ℕ) : ℝ) = |(a.pos.z : ℝ) - (b.pos.z : ℝ)| := by
    rw [Int.cast_natAbs]
    push_cast
    ring_nf
  by_cases h : (a.pos.z - b.pos.z).natAbs < (a.pos.x - b.pos.x).natAbs
  · have hr : |(a.pos.x : ℝ) - (b.pos.x : ℝ)| > |(a.pos.z : ℝ) - (b.pos.z : ℝ)| := by
      rw [← hx, ← hz]
      exact_mod_cast h
    rw [if_pos h, if_pos hr, if_pos hr]
    simp only
    rw [Nat.cast_sub h.le]
    rw [hx, hz]
    ring
  · push_neg at h
    have hr : ¬(|(a.pos.x : ℝ) - (b.pos.x : ℝ)| > |(a.pos.z : ℝ) - (b.pos.z : ℝ)|) := by
      rw [← hx, ← hz]
      push_neg
      exact_mod_cast h
    rw [if_neg (by exact_mod_cast not_lt.2 h), if_neg hr, if_neg hr]
    simp only
    rw [Nat.cast_sub h]
    rw [hx, hz]
    ring

lemma intersectsObstacle_iff (e : Obstacle) (p : IVec3) :
    intersectsObstacle e p = true
      ↔ Real.sqrt (((e.position.x - p.x : ℤ) : ℝ) ^ 2 + ((e.position.y - p.y : ℤ) : ℝ) ^ 2
            + ((e.position.z - p.z : ℤ) : ℝ) ^ 2)
          ≤ (e.pathRadius : ℝ) + 1 := by
  rw [Real.sqrt_le_iff]
  unfold intersectsObstacle
  simp only [Bool.and_eq_true, decide_eq_true_eq]
  constructor
  · rintro ⟨h1, h2⟩
    exact ⟨by exact_mod_cast h1, by exact_mod_cast h2⟩
  · rintro ⟨h1, h2⟩
    exact ⟨by exact_mod_cast h1, by exact_mod_cast h2⟩

/-- Claim C1: the spec says `findPath` never raises an error — same-cell
start/goal yields the empty sequence, and an emptied `open` set aborts by
returning the route traced so far.  The same-cell part is true (second
conjunct), but when the `open` set empties — here the start is surrounded by
an obstacle at the origin with the default `_pathRadius` of 1, so every
neighbor is blocked — the loop's *update expression* calls
`getLeastExpensiveNode` on the empty map before the `open.size > 0` guard is
ever re-tested, and that throws `Error('No nodes in list')` (first
conjunct). -/
theorem findPath_open_empty_throws :
    findPath ⟨0, 0, 0⟩ ⟨5, 0, 0⟩ [{ position := ⟨0, 0, 0⟩, pathRadius := 1 }]
        = Except.error PathErr.noNodes
      ∧ findPath ⟨0, 0, 0⟩ ⟨0, 0, 0⟩ [] = Except.ok [] := by
  exact ⟨rfl, rfl⟩

/-- Claim C2: the spec says `findPath((0,0,0), (5,0,0), [])` returns a route
ending at (5,0,0) with at most 5 points.  The search does reach the goal
cell, but the loop exits through its condition test, so the
`endNode = node` rebinding in the body never runs; `trace` then starts from
the original goal `PathNode`, whose `parent` is `undefined`, and crashes
with a `TypeError` instead of returning the route. -/
theorem findPath_straight_line_crashes :
    findPath ⟨0, 0, 0⟩ ⟨5, 0, 0⟩ [] = Except.error PathErr.traceCrash := by
  exact rfl

/-- Counterexample to claim C5 as stated: for a selector with an invalid
leading character and the *empty* entity set, `filterEntities` returns the
empty set normally instead of raising the invalid-selector error (the throw
sits inside the per-entity loop, which never runs). -/
theorem filterEntities_empty_invalid_no_error :
    filterEntities [] ("!x") = Except.ok [] := by
  exact rfl

/-- Claim C5, amended: `filterEntities` behaves exactly as the selector
grammar describes — `*` returns all entities, `@`/`#` filter by exact
name/id, `.` filters by case-insensitive type-name substring, and any other
leading character raises the invalid-selector error *provided the entity set
is non-empty*; on the empty set it returns the empty set without error. -/
theorem filterEntities_matches_grammar (entities : List CEntity) (selector : String) :
    filterEntities entities selector = filterEntitiesSpec entities selector := by
  unfold filterEntities filterEntitiesSpec
  by_cases hstar : selector == "*"
  · simp [hstar]
  · simp only [hstar, if_false, Bool.false_eq_true]
    by_cases hat : selector.data.head? = some '@'
    · rw [if_pos hat]
      induction entities with
      | nil => rfl
      | cons e rest ih =>
          unfold filterGo
          rw [if_pos hat, ih, List.filter_cons]
    · rw [if_neg hat]
      by_cases hhash : selector.data.head? = some '#'
      · rw [if_pos hhash]
        induction entities with
        | nil => rfl
        | cons e rest ih =>
            unfold filterGo
            rw [if_neg hat, if_pos hhash, ih, List.filter_cons]
      · rw [if_neg hhash]
        by_cases hdot : selector.data.head? = some '.'
        · rw [if_pos hdot]
          induction entities with
          | nil => rfl
          | cons e rest ih =>
              unfold filterGo
              rw [if_neg hat, if_neg hhash, if_pos hdot, ih, List.filter_cons]
        · rw [if_neg hdot]
          cases entities with
          | nil => rfl
          | cons e rest =>
              unfold filterGo
              rw [if_neg hat, if_neg hhash, if_neg hdot]
              rfl

lemma execGo_denied (s : String) (lvl : ℤ) (cmds : List (String × Command))
    (n : String) (plvl : ℤ)
    (hfind : (stripExec cmds).find? (fun p => strStartsWith s p.1) = some (n, plvl))
    (hlvl : lvl < plvl) :
    execCommandGo s lvl false cmds
      = some ("You do not have permission to execute that command") := by
  induction cmds with
  | nil => simp [stripExec] at hfind
  | cons hd rest ih =>
      unfold stripExec at hfind
      rw [List.map_cons, List.find?_cons] at hfind
      unfold execCommandGo
      by_cases hpre : strStartsWith s hd.1
      · rw [if_neg (by simp [hpre])]
        simp only [hpre, if_pos] at hfind
        rw [Option.some_inj] at hfind
        have hplvl : hd.2.permissionLevel = plvl := congrArg Prod.snd hfind
        rw [if_pos ⟨by rw [hplvl]; exact hlvl, rfl⟩]
      · rw [if_pos (by simp [hpre])]
        simp only [hpre, Bool.false_eq_true, if_false] at hfind
        exact ih (by unfold stripExec; exact hfind)

lemma firstMatch_stripExec (cmds : List (String × Command)) (s : String)
    (n : String) (c : Command) (h : firstMatch cmds s = some (n, c)) :
    (stripExec cmds).find? (fun p => strStartsWith s p.1) = some (n, c.permissionLevel) := by
  induction cmds with
  | nil => simp [firstMatch] at h
  | cons hd rest ih =>
      unfold firstMatch at h
      rw [List.find?_cons] at h
      unfold stripExec
      rw [List.map_cons, List.find?_cons]
      by_cases hpre : strStartsWith s hd.1
      · simp only [hpre, if_pos] at h ⊢
        rw [Option.some_inj] at h
        rw [h]
      · simp only [hpre, Bool.false_eq_true, if_false] at h ⊢
        exact ih h

lemma execGo_no_match (s : String) (lvl : ℤ) (ign : Bool) (cmds : List (String × Command))
    (h : firstMatch cmds s = none) :
    execCommandGo s lvl ign cmds = some ("Command does not exist") := by
  induction cmds with
  | nil => rfl
  | cons hd rest ih =>
      unfold firstMatch at h
      rw [List.find?_cons] at h
      by_cases hpre : strStartsWith s hd.1
      · simp [hpre] at h
      · simp only [hpre, Bool.false_eq_true, if_false] at h
        unfold execCommandGo
        rw [if_pos (by simp [hpre])]
        exact ih h

/-- Claim C9: command dispatch failures are returned as messages, never
thrown (the model of the dispatcher is a total function — the source
dispatcher has no throw site).  When no registered name is a prefix of the
input, the fixed does-not-exist message is returned; when the first matching
command outranks the executor and the override flag is unset, the fixed
permission-denied message is returned and the handler is not invoked — the
result is the same for *any* choice of handlers with the same names and
permission levels. -/
theorem execCommandString_dispatch (cmds : List (String × Command)) (s : String)
    (elvl : Option ℤ) (ign : Bool) :
    (firstMatch cmds s = none →
        execCommandString cmds s elvl ign = some ("Command does not exist"))
      ∧ (∀ n c, firstMatch cmds s = some (n, c) → elvl.getD 0 < c.permissionLevel →
          ign = false →
          execCommandString cmds s elvl ign
              = some ("You do not have permission to execute that command")
            ∧ ∀ cmds' : List (String × Command), stripExec cmds' = stripExec cmds →
                execCommandString cmds' s elvl ign
                  = some ("You do not have permission to execute that command")) := by
  constructor
  · intro h
    exact execGo_no_match s (elvl.getD 0) ign cmds h
  · intro n c hfind hlvl hign
    subst hign
    have hstrip := firstMatch_stripExec cmds s n c hfind
    refine ⟨execGo_denied s (elvl.getD 0) cmds n c.permissionLevel hstrip hlvl, ?_⟩
    intro cmds' hsame
    exact execGo_denied s (elvl.getD 0) cmds' n c.permissionLevel
      (by rw [hsame]; exact hstrip) hlvl

/-- Witness for C9 at the spec's example: `"kick "` at level 2 invoked by a
level-0 executor is denied (for any same-shape handler table), and an
unregistered command name yields the does-not-exist message. -/
theorem execCommandString_dispatch_witness :
    execCommandString [("kick ", kickCmd)] ("kick player1") none false
        = some ("You do not have permission to execute that command")
      ∧ execCommandString [("kick ", kickCmd)] ("fly") none false
        = some ("Command does not exist")
      ∧ execCommandString [("kick ", { permissionLevel := 2, exec := none })]
            ("kick player1") none false
          = some ("You do not have permission to execute that command") := by
  refine ⟨?_, ?_, ?_⟩
  · exact ((execCommandString_dispatch [("kick ", kickCmd)] ("kick player1") none false).2
      "kick " kickCmd (by rfl) (by decide) rfl).1
  · exact (execCommandString_dispatch [("kick ", kickCmd)] ("fly") none false).1 rfl
  · exact ((execCommandString_dispatch [("kick ", kickCmd)] ("kick player1") none false).2
      "kick " kickCmd (by rfl) (by decide) rfl).2
      [("kick ", { permissionLevel := 2, exec := none })] rfl

lemma insertByKey_perm (key : EntityJSON → ℤ) (a : EntityJSON) (l : List EntityJSON) :
    (insertByKey key a l).Perm (a :: l) := by
  induction l with
  | nil => exact List.Perm.refl _
  | cons b t ih =>
      unfold insertByKey
      by_cases h : key a ≤ key b
      · rw [if_pos h]
      · rw [if_neg h]
        exact List.Perm.trans (List.Perm.cons b ih) (List.Perm.swap a b t)

lemma sortByKey_perm (key : EntityJSON → ℤ) (l : List EntityJSON) :
    (sortByKey key l).Perm l := by
  induction l with
  | nil => exact List.Perm.refl _
  | cons a t ih =>
      unfold sortByKey
      exact List.Perm.trans (insertByKey_perm key a (sortByKey key t)) (List.Perm.cons a ih)

lemma getEntityByID_ok (l : Level) (p : String) (h : p ∈ l.entities.map LEntity.id) :
    ∃ e, Level.getEntityByID l p = Except.ok e := by
  obtain ⟨e, he, heq⟩ := List.mem_map.1 h
  have hsome : (l.entities.find? (fun e => e.id == p)).isSome := by
    rw [List.find?_isSome]
    exact ⟨e, he, by simp [heq]⟩
  cases hfind : l.entities.find? (fun e => e.id == p) with
  | none => rw [hfind] at hsome; simp at hsome
  | some e' =>
      refine ⟨e', ?_⟩
      unfold Level.getEntityByID
      rw [hfind]

lemma resolveRef_ok (l : Level) (o : Option String)
    (h : refOk (l.entities.map LEntity.id) o = true) :
    ∃ r, resolveRef l o = Except.ok r := by
  cases o with
  | none => exact ⟨none, rfl⟩
  | some p =>
      simp only [resolveRef]
      by_cases hemp : (p == "") = true
      · rw [if_pos hemp]
        exact ⟨none, rfl⟩
      · rw [if_neg hemp]
        unfold refOk at h
        simp only [hemp, Bool.false_or] at h
        have hmem : p ∈ l.entities.map LEntity.id := by
          simpa using h
        obtain ⟨e, he⟩ := getEntityByID_ok l p hmem
        rw [he]
        exact ⟨some e.id, rfl⟩

lemma entityApplyJSON_ok (l : Level) (stub : LEntity) (d : EntityJSON)
    (hp : refOk (l.entities.map LEntity.id) d.parent = true)
    (ho : refOk (l.entities.map LEntity.id) d.owner = true) :
    ∃ e, entityApplyJSON l stub d = Except.ok e ∧ e.id = d.id := by
  obtain ⟨rp, hrp⟩ := resolveRef_ok l d.parent hp
  obtain ⟨ro, hro⟩ := resolveRef_ok l d.owner ho
  unfold entityApplyJSON
  rw [hrp, hro]
  exact ⟨_, rfl, rfl⟩

lemma loadEntities_ok (order : List String) :
    ∀ (recs : List EntityJSON) (acc : Level),
    resolvableKnown order (acc.entities.map LEntity.id) recs = true →
    ∃ l', loadEntities order recs acc = Except.ok l'
      ∧ l'.entities.map LEntity.id
          = acc.entities.map LEntity.id
            ++ (recs.filter (fun d => decide (d.entityType ∈ order))).map EntityJSON.id := by
  intro recs
  induction recs with
  | nil =>
      intro acc h
      exact ⟨acc, rfl, by simp⟩
  | cons d rest ih =>
      intro acc h
      unfold resolvableKnown at h
      by_cases htype : d.entityType ∈ order
      · rw [if_pos htype] at h
        simp only [Bool.and_eq_true] at h
        obtain ⟨⟨hp, ho⟩, hrest⟩ := h
        have hids : ({ acc with entities := acc.entities ++ [newEntity d.id d.entityType] }
              : Level).entities.map LEntity.id
            = acc.entities.map LEntity.id ++ [d.id] := by
          simp [newEntity]
        obtain ⟨e, he, heid⟩ := entityApplyJSON_ok
          { acc with entities := acc.entities ++ [newEntity d.id d.entityType] }
          (newEntity d.id d.entityType) d (by rw [hids]; exact hp) (by rw [hids]; exact ho)
        obtain ⟨l2, hl2, hmap⟩ := ih { acc with entities := acc.entities ++ [e] }
          (by simpa [heid] using hrest)
        refine ⟨l2, ?_, ?_⟩
        · unfold loadEntities
          rw [if_pos htype, he]
          exact hl2
        · rw [hmap]
          have hfil : (List.filter (fun d => decide (d.entityType ∈ order)) (d :: rest))
              = d :: List.filter (fun d => decide (d.entityType ∈ order)) rest := by
            simp [List.filter_cons, htype]
          rw [hfil]
          simp [heid]
      · rw [if_neg htype] at h
        obtain ⟨l2, hl2, hmap⟩ := ih acc h
        refine ⟨l2, ?_, ?_⟩
        · unfold loadEntities
          rw [if_neg htype]
          exact hl2
        · rw [hmap]
          have hfil : (List.filter (fun d => decide (d.entityType ∈ order)) (d :: rest))
              = List.filter (fun d => decide (d.entityType ∈ order)) rest := by
            simp [List.filter_cons, htype]
          rw [hfil]

lemma toJSON_id_comp : EntityJSON.id ∘ LEntity.toJSON = LEntity.id := rfl

lemma reconstructionOrder_perm (order : List String) (L : Level) :
    (reconstructionOrder order (Level.toJSON order L)).Perm (L.entities.map LEntity.toJSON) := by
  unfold reconstructionOrder Level.toJSON
  exact (sortByKey_perm _ _).trans (sortByKey_perm _ _)

/-- Claim C4, amended: the round trip `Level.fromJSON(L.toJSON())` preserves
the entity-set size and the id set for a level whose entity types are all in
the loading-order list, *provided* every record's `parent`/`owner` reference
resolves at its reconstruction time (to an already-reconstructed entity or
itself) — the hypothesis the counterexample `level_roundtrip_cycle_fails`
shows is necessary. -/
theorem level_roundtrip_amended (order : List String) (L : Level)
    (h1 : L.entities.all (fun e => decide (e.entityType ∈ order)) = true)
    (h2 : resolvableKnown order []
        (reconstructionOrder order (Level.toJSON order L)) = true) :
    ∃ L', Level.FromJSON order (Level.toJSON order L) = Except.ok L'
      ∧ L'.entities.length = L.entities.length
      ∧ ∀ s : String, s ∈ L'.entities.map LEntity.id ↔ s ∈ L.entities.map LEntity.id := by
  have h1' : ∀ e ∈ L.entities, e.entityType ∈ order := by
    simpa using h1
  have hperm := reconstructionOrder_perm order L
  have hall : ∀ r ∈ reconstructionOrder order (Level.toJSON order L),
      (fun d => decide (d.entityType ∈ order)) r = true := by
    intro r hr
    have hr' : r ∈ L.entities.map LEntity.toJSON := hperm.mem_iff.1 hr
    obtain ⟨e, he, rfl⟩ := List.mem_map.1 hr'
    simp [LEntity.toJSON, h1' e he]
  have hfilter : (reconstructionOrder order (Level.toJSON order L)).filter
        (fun d => decide (d.entityType ∈ order))
      = reconstructionOrder order (Level.toJSON order L) :=
    List.filter_eq_self.mpr hall
  obtain ⟨L', hL', hmap⟩ := loadEntities_ok order
    (reconstructionOrder order (Level.toJSON order L))
    { id := (Level.toJSON order L).id, name := (Level.toJSON order L).name,
      difficulty := (Level.toJSON order L).difficulty, entities := [] } h2
  rw [hfilter] at hmap
  simp only [List.map_nil, List.nil_append] at hmap
  have hidmaps : (reconstructionOrder order (Level.toJSON order L)).map EntityJSON.id
      |>.Perm (L.entities.map LEntity.id) := by
    have := hperm.map EntityJSON.id
    rwa [List.map_map, toJSON_id_comp] at this
  refine ⟨L', ?_, ?_, ?_⟩
  · unfold Level.FromJSON Level.fromJSON
    exact hL'
  · have hlen := congrArg List.length hmap
    rw [List.length_map] at hlen
    rw [hlen, List.length_map, hperm.length_eq, List.length_map]
  · intro s
    rw [hmap, hidmaps.mem_iff]

/-- Counterexample to claim C4 as stated: `cycleLevel`'s entities all have a
registered `entityType`, yet `Level.fromJSON(L.toJSON())` throws the
`ReferenceError` from `getEntityByID` — when the first of the two records is
reconstructed, the entity its `parent` id names does not exist yet — instead
of yielding a level with the same two ids. -/
theorem level_roundtrip_cycle_fails :
    cycleLevel.entities.all (fun e => decide (e.entityType ∈ defaultLoadingOrder)) = true
      ∧ Level.FromJSON defaultLoadingOrder (Level.toJSON defaultLoadingOrder cycleLevel)
          = Except.error ("Entity does not exist") := by
  exact ⟨by decide, rfl⟩

/-- Witness for C4 (amended) at `roundtripLevelW`: both hypotheses hold by
computation and the round trip preserves size and ids. -/
theorem level_roundtrip_amended_witness :
    roundtripLevelW.entities.all
        (fun e => decide (e.entityType ∈ defaultLoadingOrder)) = true
      ∧ resolvableKnown defaultLoadingOrder []
          (reconstructionOrder defaultLoadingOrder
            (Level.toJSON defaultLoadingOrder roundtripLevelW)) = true
      ∧ ∃ L', Level.FromJSON defaultLoadingOrder
            (Level.toJSON defaultLoadingOrder roundtripLevelW) = Except.ok L'
          ∧ L'.entities.length = roundtripLevelW.entities.length
          ∧ ∀ s : String, s ∈ L'.entities.map LEntity.id
              ↔ s ∈ roundtripLevelW.entities.map LEntity.id :=
  ⟨by decide, by decide,
    level_roundtrip_amended defaultLoadingOrder roundtripLevelW (by decide) (by decide)⟩

/-- Claim C8, amended: `Level.fromJSON` skips every record whose
`entityType` is unknown to the loading order and reconstructs every
known-typed record — *provided* the known records' `parent`/`owner`
references resolve among the known records themselves; a known record
referencing a skipped record makes the reconstruction throw, as
`fromJSON_unknown_ref_fails` shows. -/
theorem fromJSON_skips_unknown_amended (order : List String) (json : LevelJSON)
    (h : resolvableKnown order [] (reconstructionOrder order json) = true) :
    ∃ l', Level.FromJSON order json = Except.ok l'
      ∧ l'.entities.map LEntity.id
          = ((reconstructionOrder order json).filter
              (fun d => decide (d.entityType ∈ order))).map EntityJSON.id := by
  obtain ⟨l', hl', hmap⟩ := loadEntities_ok order (reconstructionOrder order json)
    { id := json.id, name := json.name, difficulty := json.difficulty, entities := [] } h
  refine ⟨l', ?_, ?_⟩
  · unfold Level.FromJSON Level.fromJSON
    exact hl'
  · simpa using hmap

/-- Counterexample to claim C8 as stated: reconstructing `unknownRefJSON`
*does* fail because of the unknown-typed record — it is skipped, and the
known record's `parent` lookup then throws `ReferenceError('Entity does not
exist')`, so `fromJSON` neither completes nor reconstructs the known
record's level. -/
theorem fromJSON_unknown_ref_fails :
    Level.FromJSON defaultLoadingOrder unknownRefJSON
      = Except.error ("Entity does not exist") := by
  exact rfl

/-- Witness for C8 (amended) at `unknownOkJSON`: the hypothesis holds by
computation; the unknown record is skipped and the known record `"k"` is
reconstructed. -/
theorem fromJSON_skips_unknown_amended_witness :
    resolvableKnown defaultLoadingOrder []
        (reconstructionOrder defaultLoadingOrder unknownOkJSON) = true
      ∧ ∃ l', Level.FromJSON defaultLoadingOrder unknownOkJSON = Except.ok l'
          ∧ l'.entities.map LEntity.id
              = ((reconstructionOrder defaultLoadingOrder unknownOkJSON).filter
                  (fun d => decide (d.entityType ∈ defaultLoadingOrder))).map EntityJSON.id :=
  ⟨by decide, fromJSON_skips_unknown_amended defaultLoadingOrder unknownOkJSON (by decide)⟩

/-- Claim C10: `p.owner === p` always — the overriding getter returns the
player itself, for every player state, including after `fromJSON` restored a
serialized record (whatever `owner` id it carried) and after `update`; no
operation can make the getter return a different entity, since it ignores
all stored state. -/
theorem player_owner_self (p : PlayerEnt) (d : EntityJSON) :
    PlayerEnt.owner p = p
      ∧ PlayerEnt.owner (PlayerEnt.fromJSON p d) = PlayerEnt.fromJSON p d
      ∧ PlayerEnt.owner (PlayerEnt.update p) = PlayerEnt.update p :=
  ⟨rfl, rfl, rfl⟩
